import Mathlib

/-!
Shallow embedding of `pypahdb/decomposer.py` (class `Decomposer`):
the map-rendering fragment of `plot_map`, the page-emission fragment of
`save_pdf`, and the header/cube construction of `save_fits`.

Numpy floating-point values are modelled symbolically by `FVal`
(a finite rational, NaN, +inf or -inf); the operations the code uses
(`np.nanmax`, elementwise division, `np.isfinite`) are given their IEEE
semantics on this type.  The linear FITS world-coordinate transform used
by `plot_map` is modelled over the rationals.  FITS headers are modelled
as ordered lists of (keyword, value) cards; deleting a keyword removes
every card with that keyword, as `astropy.io.fits.Header.__delitem__`
does for string keys.
-/

/-- Symbolic model of a numpy float64 value: a finite rational, NaN,
positive infinity or negative infinity.  (Signed zeros are not
distinguished; zero is treated as +0.) -/
inductive FVal where
  | fin (q : ℚ)
  | nan
  | inf
  | ninf
deriving DecidableEq, Repr

namespace FVal

/-- `np.isfinite`. -/
def isFinite : FVal → Bool
  | fin _ => true
  | _ => false

/-- IEEE / numpy elementwise division (`data / m`); division by zero does
not raise in numpy, it yields NaN (0/0) or a signed infinity. -/
def div : FVal → FVal → FVal
  | nan, _ => nan
  | _, nan => nan
  | fin a, fin b =>
      if b = 0 then (if a = 0 then nan else if 0 < a then inf else ninf)
      else fin (a / b)
  | fin _, inf => fin 0
  | fin _, ninf => fin 0
  | inf, fin b => if b < 0 then ninf else inf
  | inf, inf => nan
  | inf, ninf => nan
  | ninf, fin b => if b < 0 then inf else ninf
  | ninf, inf => nan
  | ninf, ninf => nan

/-- Pairwise maximum ignoring NaN, as used by `np.nanmax` (NaN is dropped
in favour of the other operand; infinities compare as usual). -/
def nmax : FVal → FVal → FVal
  | nan, y => y
  | x, nan => x
  | inf, _ => inf
  | _, inf => inf
  | ninf, y => y
  | x, ninf => x
  | fin a, fin b => fin (max a b)

end FVal

/-- `np.nanmax` over a collection of values: the maximum ignoring NaNs,
NaN when every entry is NaN (numpy emits a RuntimeWarning in that case
but does not raise). -/
def nanmaxF (l : List FVal) : FVal := l.foldl FVal.nmax FVal.nan

/-- A 2-D scalar result grid (`self.ionized_fraction`,
`self.large_fraction`, `self.error`): the `data` argument of
`Decomposer.plot_map`. -/
structure SField where
  rows : ℕ
  cols : ℕ
  val : ℕ → ℕ → FVal

/-- All cell values of the grid, row-major. -/
def allValues (f : SField) : List FVal :=
  (List.range f.rows).flatMap fun i => (List.range f.cols).map fun j => f.val i j

/-- `m = np.nanmax(data)` in `plot_map`. -/
def plot_map_scale (f : SField) : FVal := nanmaxF (allValues f)

/-- `im = data / m` in `plot_map`: the normalized cell value. -/
def plot_map_norm (f : SField) (i j : ℕ) : FVal :=
  (f.val i j).div (plot_map_scale f)

/-- The cells for which `plot_map` emits a colored quadrilateral patch:
the code iterates `for i in range(im.shape[0] - 1)`,
`for j in range(im.shape[1] - 1)` and appends a filled polygon whenever
`np.isfinite(im[i, j])`. -/
def plot_map_patches (f : SField) : List (ℕ × ℕ) :=
  (List.range (f.rows - 1)).flatMap fun i =>
    (List.range (f.cols - 1)).filterMap fun j =>
      if (plot_map_norm f i j).isFinite then some (i, j) else none

/-- A 2×2 grid whose four cells all hold the finite value 1. -/
def allOnes22 : SField := ⟨2, 2, fun _ _ => FVal.fin 1⟩

/-- A 2×2 grid whose four cells all hold the finite value 0 (so the
maximum finite value is zero). -/
def allZeros22 : SField := ⟨2, 2, fun _ _ => FVal.fin 0⟩

/-- A 2×2 grid whose cells are all NaN (no finite cell). -/
def allNaN22 : SField := ⟨2, 2, fun _ _ => FVal.nan⟩

/-- A 2-D point / coordinate pair over the rationals. -/
structure Vec2 where
  x : ℚ
  y : ℚ
deriving DecidableEq, Repr

/-- A 2×2 rational matrix `[[a, b], [c, d]]` (the FITS `PC` matrix). -/
structure Mat2 where
  a : ℚ
  b : ℚ
  c : ℚ
  d : ℚ
deriving DecidableEq, Repr

def Mat2.mulVec (m : Mat2) (v : Vec2) : Vec2 :=
  ⟨m.a * v.x + m.b * v.y, m.c * v.x + m.d * v.y⟩

def Mat2.det (m : Mat2) : ℚ := m.a * m.d - m.b * m.c

/-- Matrix inverse (entries are junk when the determinant is zero; the
projection matrix `[[-1, 0], [0, 1]]` installed by `plot_map` always has
determinant -1). -/
def Mat2.inv (m : Mat2) : Mat2 :=
  ⟨m.d / m.det, -m.b / m.det, -m.c / m.det, m.a / m.det⟩

/-- A linear FITS WCS: `PC` rotation/skew matrix, per-axis scales `CDELT`,
1-based reference pixel `CRPIX` and reference world value `CRVAL`. -/
structure WCSLin where
  pc : Mat2
  cdelt : Vec2
  crpix : Vec2
  crval : Vec2
deriving DecidableEq, Repr

/-- `wcs.pixel_to_world_values` for a linear WCS with 0-based pixel
coordinates: world = crval + cdelt ⊙ (PC (p + 1 - crpix)). -/
def pixel_to_world_values (w : WCSLin) (p : Vec2) : Vec2 :=
  let q : Vec2 := ⟨p.x + 1 - w.crpix.x, p.y + 1 - w.crpix.y⟩
  let u := w.pc.mulVec q
  ⟨w.crval.x + w.cdelt.x * u.x, w.crval.y + w.cdelt.y * u.y⟩

/-- `wcs.world_to_pixel_values`, the inverse direction. -/
def world_to_pixel_values (w : WCSLin) (s : Vec2) : Vec2 :=
  let t : Vec2 := ⟨(s.x - w.crval.x) / w.cdelt.x, (s.y - w.crval.y) / w.cdelt.y⟩
  let q := w.pc.inv.mulVec t
  ⟨q.x + w.crpix.x - 1, q.y + w.crpix.y - 1⟩

/-- `wcs_proj = wcs.deepcopy(); wcs_proj.wcs.pc = [[-1, 0], [0, 1]]` in
`plot_map`. -/
def wcs_proj (w : WCSLin) : WCSLin := { w with pc := ⟨-1, 0, 0, 1⟩ }

/-- The projected x-coordinate `x[i, j]` of the pixel-corner grid in
`plot_map`: corner (i, j) sits at pixel coordinates (j - 0.5, i - 0.5)
and is round-tripped pixel → world (through `wcs`) → pixel (through
`wcs_proj`). -/
def projected_corner_x (w : WCSLin) (i j : ℕ) : ℚ :=
  (world_to_pixel_values (wcs_proj w) (pixel_to_world_values w ⟨(j : ℚ) - 1/2, (i : ℚ) - 1/2⟩)).x

/-- `reverse = x[0, 0] < x[-1, 0]` in `plot_map`; when true the code calls
`ax.invert_xaxis()`. -/
def plot_map_reverse (w : WCSLin) (rows : ℕ) : Bool :=
  decide (projected_corner_x w 0 0 < projected_corner_x w (rows - 1) 0)

/-- A WCS whose `PC` matrix swaps the two axes: the projected first-axis
corner coordinate strictly decreases from the first pixel row to the
last. -/
def wSwap : WCSLin := ⟨⟨0, 1, 1, 0⟩, ⟨1, 1⟩, ⟨1, 1⟩, ⟨0, 0⟩⟩

/-- The pixel-size indicator in `plot_map`: `x1 = x0 - 1` when the axis is
reversed, `x1 = x0 + 1` otherwise. -/
def plot_map_pixel_bar (x0 : ℚ) (reverse : Bool) : ℚ :=
  if reverse then x0 - 1 else x0 + 1

/-- The angular-size indicator in `plot_map`:
`x1 = x0 ∓ 1.0 / (3600 * wcs.wcs.cdelt[0])` — it uses `cdelt[0]`, the
first-axis (right-ascension) pixel scale. -/
def plot_map_arcsec_bar (x0 : ℚ) (reverse : Bool) (w : WCSLin) : ℚ :=
  if reverse then x0 - 1 / (3600 * w.cdelt.x) else x0 + 1 / (3600 * w.cdelt.x)

/-- Modelled from the spec: the angular-size indicator as the spec words
it, extending by one arcsecond computed from the transform's declination
pixel scale, i.e. `cdelt[1]` (the second axis) instead of `cdelt[0]`. -/
def plot_map_arcsec_bar_specreading (x0 : ℚ) (reverse : Bool) (w : WCSLin) : ℚ :=
  if reverse then x0 - 1 / (3600 * w.cdelt.y) else x0 + 1 / (3600 * w.cdelt.y)

/-- A WCS whose two axes have different pixel scales (1 arcsec on the
first axis, 2 arcsec on the second). -/
def wAniso : WCSLin := ⟨⟨1, 0, 0, 1⟩, ⟨1/3600, 1/1800⟩, ⟨1, 1⟩, ⟨0, 0⟩⟩

/-- A FITS header: an ordered list of (keyword, value) cards. -/
abbrev Header := List (String × String)

/-- The third-axis keywords deleted by `save_pdf` before deriving the
two-axis WCS (it also sets `NAXIS = 2`, not modelled here). -/
def save_pdf_cards : List String :=
  ["NAXIS3", "PC3_3", "CRPIX3", "CRVAL3", "CTYPE3", "CDELT3",
   "CUNIT3", "PS3_0", "PS3_1", "WCSAXES"]

/-- The third-axis keywords deleted by `save_fits._fits_to_disk` before
writing the image cube. -/
def save_fits_cards : List String :=
  ["PC3_3", "CRPIX3", "CRVAL3", "CTYPE3", "CDELT3",
   "CUNIT3", "PS3_0", "PS3_1", "WCSAXES"]

/-- `del hdr[c]` on an astropy header: every card with keyword `c` is
removed. -/
def header_del (h : Header) (c : String) : Header :=
  h.filter (fun kv => kv.1 != c)

/-- The loop `for c in cards: if c in hdr: del hdr[c]` shared by
`save_pdf` and `save_fits`. -/
def strip_cards (cards : List String) (h : Header) : Header :=
  cards.foldl (fun h c => if h.any (fun kv => kv.1 == c) then header_del h c else h) h

/-- `hdr[k] = v` on an astropy header for an ordinary keyword: update the
first existing card with keyword `k`, else append a new card. -/
def setKey : Header → String → String → Header
  | [], k, v => [(k, v)]
  | kv :: rest, k, v => if kv.1 == k then (k, v) :: rest else kv :: setKey rest k v

/-- `[line[i:i+72] for i in range(0, len(line), 72)]`: split a line into
chunks of at most 72 characters (an empty line yields no chunks). -/
def chunks72 (l : List Char) : List (List Char) :=
  if h : l = [] then [] else l.take 72 :: chunks72 (l.drop 72)
termination_by l.length
decreasing_by
  simp only [List.length_drop]
  have : 0 < l.length := List.length_pos.mpr h
  omega

/-- Splitting the comments text on newlines and chunking each line, as
`_fits_to_disk` does before appending `COMMENT` cards. -/
def chunk_lines (s : String) : List String :=
  (s.splitOn "\n").flatMap fun line => (chunks72 line.toList).map String.mk

/-- The `comments` string of `save_fits._fits_to_disk`. -/
def save_fits_comments : String :=
  "This file contains results from pypahdb.\n" ++
  "Pypahdb was created as part of the JWST ERS Program " ++
  "titled \x27Radiative Feedback from Massive Stars as " ++
  "Traced by Multiband Imaging and Spectroscopic " ++
  "Mosaics\x27 (ID 1288).\n" ++
  "Visit https://github.com/pahdb/pypahdb/ for more " ++
  "information on pypahdb."

/-- The header produced by `save_fits._fits_to_disk`: stamp `DATE`
(runtime time string), `ORIGIN`, `CREATOR` (runtime version string) and
`AUTHOR`; delete the third-axis cards; append the wrapped general
comments and the three per-plane comment cards. -/
def fits_to_disk_header (dateStr creatorStr : String) (hdr : Header) : Header :=
  let h1 := setKey hdr "DATE" dateStr
  let h2 := setKey h1 "ORIGIN" "NASA Ames Research Center"
  let h3 := setKey h2 "CREATOR" creatorStr
  let h4 := setKey h3 "AUTHOR"
    "Dr. C. Boersma,  Dr. M.J. Shannon, and Dr. A. Maragkoudakis"
  let h5 := strip_cards save_fits_cards h4
  h5 ++ (chunk_lines save_fits_comments).map (fun c => ("COMMENT", c))
     ++ [("COMMENT", "1st data plane contains the PAH ionization fraction."),
         ("COMMENT", "2nd data plane contains the PAH large fraction."),
         ("COMMENT", "3rd data plane contains the error")]

/-- A Python value as passed for the `header`, `domaps` and `doplots`
arguments of `save_pdf` / `save_fits`. -/
inductive PyVal where
  | pybool (b : Bool)
  | pyint (n : ℤ)
  | pystr (s : String)
  | pynone
  | pyheader (h : Header)
deriving DecidableEq

/-- `isinstance(header, fits.header.Header)`. -/
def PyVal.isHeader : PyVal → Bool
  | .pyheader _ => true
  | _ => false

/-- Python `v is True`: object identity with the singleton `True`; false
for any non-bool value, truthy or not. -/
def PyVal.isTrue : PyVal → Bool
  | .pybool true => true
  | _ => false

/-- Python truthiness, as tested by `if (doplots):`. -/
def PyVal.truthy : PyVal → Bool
  | .pybool b => b
  | .pyint n => n != 0
  | .pystr s => s != ""
  | .pynone => false
  | .pyheader h => !h.isEmpty

/-- `save_fits`: deep-copy the supplied header when it is a
`fits.header.Header`, otherwise start from an empty `fits.Header()`;
then build the output header via `_fits_to_disk`. -/
def save_fits_header (dateStr creatorStr : String) (header : PyVal) : Header :=
  fits_to_disk_header dateStr creatorStr
    (match header with
     | .pyheader h => h
     | _ => [])

/-- One 2-D data plane of the output image cube. -/
def Plane : Type := ℕ → ℕ → FVal

/-- `np.stack((ionized_fraction, large_fraction, error), axis=0)` in
`save_fits._fits_to_disk`: the planes of the written image cube, in
order. -/
def save_fits_cube (ion large err : Plane) : List Plane := [ion, large, err]

/-- One rendered page of the PDF report. -/
inductive Page where
  | mapIonizedFraction
  | mapLargeFraction
  | mapError
  | fit (i j : ℕ)
deriving DecidableEq, Repr

/-- The three map pages of `save_pdf`, in the order the code appends
them: ionized fraction, large fraction, error. -/
def map_pages : List Page := [.mapIonizedFraction, .mapLargeFraction, .mapError]

/-- The fit pages of `save_pdf`: `for i in range(shape[1]): for j in
range(shape[2]): pdf.savefig(self.plot_fit(i, j))` — row-major order. -/
def fit_pages (rows cols : ℕ) : List Page :=
  (List.range rows).flatMap fun i => (List.range cols).map fun j => Page.fit i j

/-- The pages `save_pdf` appends to the document: map pages when
`domaps is True` (object identity), fit pages when `doplots` is truthy
(`if (doplots):`). -/
def save_pdf_pages (domaps doplots : PyVal) (rows cols : ℕ) : List Page :=
  (if domaps.isTrue then map_pages else [])
    ++ (if doplots.truthy then fit_pages rows cols else [])

/-! ## Helper lemmas -/

/-- Division by a zero scale never yields a finite value: `0/0` is NaN and
`a/0` is a signed infinity. -/
lemma div_fin_zero_not_finite (v : FVal) : (v.div (FVal.fin 0)).isFinite = false := by
  cases v <;> simp only [FVal.div] <;> first | rfl | (split_ifs <;> rfl)

/-- Dividing a non-finite value by anything never yields a finite value. -/
lemma div_not_finite_left (v m : FVal) (h : v.isFinite = false) :
    (v.div m).isFinite = false := by
  cases v
  case fin q => exact absurd h (by simp [FVal.isFinite])
  all_goals cases m <;> simp only [FVal.div] <;> first | rfl | (split_ifs <;> rfl)

/-- The keyword-deletion loop removes exactly the cards whose keyword is
in the deleted list, keeping everything else in order. -/
lemma strip_cards_eq_filter (cards : List String) (h : Header) :
    strip_cards cards h = h.filter (fun kv => !(cards.contains kv.1)) := by
  induction cards generalizing h with
  | nil => simp [strip_cards]
  | cons c cs ih =>
    rw [strip_cards, List.foldl_cons]
    by_cases hc : h.any (fun kv => kv.1 == c) = true
    · rw [if_pos hc]
      rw [show List.foldl (fun h c => if h.any (fun kv => kv.1 == c) then header_del h c else h)
            (header_del h c) cs = strip_cards cs (header_del h c) from rfl]
      rw [ih, header_del, List.filter_filter]
      refine List.filter_congr ?_
      intro x _
      rw [List.contains_cons, Bool.not_or, Bool.and_comm]
      rfl
    · rw [if_neg hc]
      rw [show List.foldl (fun h c => if h.any (fun kv => kv.1 == c) then header_del h c else h)
            h cs = strip_cards cs h from rfl]
      rw [ih]
      refine List.filter_congr ?_
      intro x hx
      have hfalse : h.any (fun kv => kv.1 == c) = false := Bool.eq_false_iff.mpr hc
      have hx1 : (x.1 == c) = false :=
        Bool.eq_false_iff.mpr (List.any_eq_false.mp hfalse x hx)
      rw [List.contains_cons, hx1, Bool.false_or]

/-- Stripping a keyword list is idempotent. -/
lemma strip_cards_idem (cards : List String) (h : Header) :
    strip_cards cards (strip_cards cards h) = strip_cards cards h := by
  simp only [strip_cards_eq_filter, List.filter_filter]
  exact List.filter_congr (by intro x _; rw [Bool.and_self])

/-- There are `rows * cols` fit pages. -/
lemma fit_pages_length (rows cols : ℕ) : (fit_pages rows cols).length = rows * cols := by
  induction rows with
  | zero => simp [fit_pages]
  | succ n ih =>
    rw [fit_pages, List.range_succ, List.flatMap_append] at *
    simp only [List.length_append, List.flatMap_cons, List.flatMap_nil, List.append_nil,
      List.length_map, List.length_range] at *
    rw [ih, Nat.succ_mul]

/-- The fit page for pixel (i, j) sits at row-major index
`i * cols + j`. -/
lemma fit_pages_getElem (rows cols i j : ℕ) (hi : i < rows) (hj : j < cols) :
    (fit_pages rows cols)[i * cols + j]? = some (Page.fit i j) := by
  induction rows with
  | zero => omega
  | succ n ih =>
    rw [fit_pages, List.range_succ, List.flatMap_append]
    rcases Nat.lt_or_ge i n with hn | hn
    · rw [List.getElem?_append_left]
      · exact ih hn
      · rw [show ((List.range n).flatMap fun i => (List.range cols).map fun j => Page.fit i j)
            = fit_pages n cols from rfl, fit_pages_length]
        calc i * cols + j < i * cols + cols := by omega
          _ = (i + 1) * cols := by rw [Nat.succ_mul]
          _ ≤ n * cols := Nat.mul_le_mul_right _ hn
    · have hin : i = n := by omega
      subst hin
      rw [List.getElem?_append_right]
      · rw [show ((List.range i).flatMap fun a => (List.range cols).map fun j => Page.fit a j)
            = fit_pages i cols from rfl, fit_pages_length]
        simp only [List.flatMap_cons, List.flatMap_nil, List.append_nil]
        rw [show i * cols + j - i * cols = j by omega, List.getElem?_map,
          List.getElem?_range hj]
        rfl
      · rw [show ((List.range i).flatMap fun a => (List.range cols).map fun j => Page.fit a j)
            = fit_pages i cols from rfl, fit_pages_length]
        omega

/-! ## Claims -/

/-- C1, counterexample: in the all-finite 2×2 grid, cell (1, 1) is finite
(and the grid has at least one finite cell), yet `plot_map` emits no patch
for it — the loops stop at `shape - 1`, so finite cells in the last row
and last column never receive a patch, contradicting the claim. -/
theorem c1_counterexample :
    (allOnes22.val 1 1).isFinite = true ∧ 1 < allOnes22.rows ∧ 1 < allOnes22.cols
    ∧ (1, 1) ∉ plot_map_patches allOnes22 := by decide

/-- C1, amended: `plot_map` emits exactly one colored patch for each cell
(i, j) with `i < rows - 1` and `j < cols - 1` whose normalized value is
finite, and no patch for any other cell; in particular cells in the last
row and the last column of the grid never receive a patch. -/
theorem c1_amended (f : SField) (i j : ℕ) :
    ((i, j) ∈ plot_map_patches f ↔
      i < f.rows - 1 ∧ j < f.cols - 1 ∧ (plot_map_norm f i j).isFinite = true)
    ∧ (plot_map_patches f).Nodup := by
  constructor
  · simp only [plot_map_patches, List.mem_flatMap, List.mem_filterMap, List.mem_range,
      Option.ite_none_right_eq_some, Option.some.injEq, Prod.mk.injEq]
    constructor
    · rintro ⟨a, ha, b, hb, hfin, rfl, rfl⟩
      exact ⟨ha, hb, hfin⟩
    · rintro ⟨hi, hj, hfin⟩
      exact ⟨i, hi, ⟨j, hj, hfin, rfl, rfl⟩⟩
  · rw [plot_map_patches, List.nodup_flatMap]
    constructor
    · intro a _
      refine List.Nodup.filterMap ?_ (List.nodup_range _)
      intro b b' c hc hc'
      simp only [Option.mem_def, Option.ite_none_right_eq_some, Option.some.injEq] at hc hc'
      exact ((Prod.mk.injEq _ _ _ _).mp (hc.2.trans hc'.2.symm)).2
    · refine (List.nodup_range _).imp ?_
      intro a b hab
      intro c hc hc'
      simp only [List.mem_filterMap, Option.ite_none_right_eq_some, Option.some.injEq] at hc hc'
      obtain ⟨x, _, _, hx⟩ := hc
      obtain ⟨y, _, _, hy⟩ := hc'
      exact hab (((Prod.mk.injEq _ _ _ _).mp (hx.trans hy.symm)).1)

/-- C2, counterexample: for `wSwap` on a 3-row grid the projected
x-coordinate of the first pixel-row corner exceeds that of the last (the
mapping is decreasing along the first axis), yet `plot_map` does not
invert the x-axis — the code inverts on `x[0, 0] < x[-1, 0]`, the
opposite comparison to the one the claim states. -/
theorem c2_counterexample :
    projected_corner_x wSwap 2 0 < projected_corner_x wSwap 0 0
    ∧ plot_map_reverse wSwap 3 = false := by
  constructor <;>
    norm_num [plot_map_reverse, projected_corner_x, world_to_pixel_values,
      pixel_to_world_values, wcs_proj, Mat2.inv, Mat2.mulVec, Mat2.det, wSwap]

/-- C2, amended: the x-axis is inverted iff the projected x-coordinate of
the first pixel-row corner is strictly less than that of the last (an
increasing mapping along the first axis); equivalently, for a linear WCS
with nonzero first-axis scale, iff `pc.b * (rows - 1) < 0`. -/
theorem c2_amended (w : WCSLin) (rows : ℕ) (hx : w.cdelt.x ≠ 0) :
    plot_map_reverse w rows = true ↔ w.pc.b * ((rows - 1 : ℕ) : ℚ) < 0 := by
  have key : ∀ i : ℕ, projected_corner_x w i 0 =
      w.crpix.x - 1 - (w.pc.a * (1/2 - w.crpix.x) + w.pc.b * ((i : ℚ) + 1/2 - w.crpix.y)) := by
    intro i
    simp only [projected_corner_x, world_to_pixel_values, pixel_to_world_values, wcs_proj,
      Mat2.inv, Mat2.mulVec, Mat2.det]
    field_simp
    ring
  have hdiff : projected_corner_x w (rows - 1) 0 - projected_corner_x w 0 0
      = -(w.pc.b * ((rows - 1 : ℕ) : ℚ)) := by
    rw [key, key]
    push_cast
    ring
  rw [plot_map_reverse, decide_eq_true_iff, ← sub_pos, hdiff, neg_pos]

/-- C2, witness: the amended characterization applied to `wSwap` with a
3-row grid (first-axis scale 1 ≠ 0). -/
theorem c2_witness :
    plot_map_reverse wSwap 3 = true ↔ wSwap.pc.b * ((3 - 1 : ℕ) : ℚ) < 0 :=
  c2_amended wSwap 3 (by norm_num [wSwap])

/-- C3: the cube written by `save_fits` has exactly three planes, in the
order ionized fraction, large fraction, error. -/
theorem c3_plane_order (A B C : Plane) :
    (save_fits_cube A B C).length = 3
    ∧ (save_fits_cube A B C)[0]? = some A
    ∧ (save_fits_cube A B C)[1]? = some B
    ∧ (save_fits_cube A B C)[2]? = some C :=
  ⟨rfl, rfl, rfl, rfl⟩

/-- C4: with boolean flags, `save_pdf` produces
(3 if maps else 0) + (rows·cols if fits else 0) pages; the map pages come
first in the fixed order, and the fit page for pixel (i, j) sits at
row-major offset `i * cols + j` after them. -/
theorem c4_page_layout (b1 b2 : Bool) (rows cols i j : ℕ) (hi : i < rows) (hj : j < cols) :
    (save_pdf_pages (.pybool b1) (.pybool b2) rows cols).length
        = (if b1 then 3 else 0) + (if b2 then rows * cols else 0)
    ∧ (save_pdf_pages (.pybool b1) (.pybool b2) rows cols).take (if b1 then 3 else 0)
        = (if b1 then map_pages else [])
    ∧ (b2 = true → (save_pdf_pages (.pybool b1) (.pybool b2) rows cols)[(if b1 then 3
        else 0) + (i * cols + j)]? = some (Page.fit i j)) := by
  have hdm : (PyVal.pybool b1).isTrue = b1 := by cases b1 <;> rfl
  have hdp : (PyVal.pybool b2).truthy = b2 := rfl
  refine ⟨?_, ?_, ?_⟩
  · rw [save_pdf_pages, hdm, hdp, List.length_append]
    cases b1 <;> cases b2 <;>
      simp [map_pages, fit_pages_length]
  · rw [save_pdf_pages, hdm, hdp]
    cases b1
    · simp
    · simp only [if_true]
      rw [show (3 : ℕ) = map_pages.length from rfl]
      exact List.take_left _ _
  · intro h2
    subst h2
    rw [save_pdf_pages, hdm, hdp, if_pos rfl]
    cases b1
    · simp only [Bool.false_eq_true, if_false, List.nil_append, Nat.zero_add]
      exact fit_pages_getElem rows cols i j hi hj
    · simp only [if_true]
      rw [List.getElem?_append_right (by simp [map_pages])]
      rw [show 3 + (i * cols + j) - map_pages.length = i * cols + j by simp [map_pages]]
      exact fit_pages_getElem rows cols i j hi hj

/-- C4, witness: the layout theorem on a 2×2 grid with maps and fits both
requested, probed at pixel (1, 1). -/
theorem c4_witness :
    (save_pdf_pages (.pybool true) (.pybool true) 2 2).length
        = (if true then 3 else 0) + (if true then 2 * 2 else 0)
    ∧ (save_pdf_pages (.pybool true) (.pybool true) 2 2).take (if true then 3 else 0)
        = (if true then map_pages else [])
    ∧ (true = true → (save_pdf_pages (.pybool true) (.pybool true) 2 2)[(if true then 3
        else 0) + (1 * 2 + 1)]? = some (Page.fit 1 1)) :=
  c4_page_layout true true 2 2 1 1 (by decide) (by decide)

/-- C5, counterexample: on the all-zero 2×2 grid the maximum finite value
is zero, and `plot_map` divides by it anyway: the normalized value of the
finite cell (0, 0) becomes NaN (0/0), so no cell is patched — the
normalization is not a no-op/identity scale. -/
theorem c5_counterexample :
    (allZeros22.val 0 0).isFinite = true ∧ plot_map_scale allZeros22 = FVal.fin 0
    ∧ plot_map_norm allZeros22 0 0 = FVal.nan ∧ plot_map_patches allZeros22 = [] := by decide

/-- C5, amended: `plot_map` always completes (division by zero does not
raise in numpy); when the maximum value is zero the division by it makes
every normalized value non-finite, so no patch is drawn, and an
all-non-finite field likewise yields a valid image with zero colored
patches. -/
theorem c5_amended (f : SField) :
    (plot_map_scale f = FVal.fin 0 → plot_map_patches f = [])
    ∧ ((∀ v ∈ allValues f, v.isFinite = false) → plot_map_patches f = []) := by
  constructor
  · intro h
    rw [plot_map_patches, List.flatMap_eq_nil_iff]
    intro i _
    rw [List.filterMap_eq_nil_iff]
    intro j _
    simp [plot_map_norm, h, div_fin_zero_not_finite]
  · intro h
    rw [plot_map_patches, List.flatMap_eq_nil_iff]
    intro i hi
    rw [List.filterMap_eq_nil_iff]
    intro j hj
    have hv : f.val i j ∈ allValues f := by
      simp only [allValues, List.mem_flatMap, List.mem_range]
      exact ⟨i, lt_of_lt_of_le (List.mem_range.mp hi) (Nat.sub_le _ _),
        List.mem_map.mpr ⟨j, List.mem_range.mpr
          (lt_of_lt_of_le (List.mem_range.mp hj) (Nat.sub_le _ _)), rfl⟩⟩
    simp [plot_map_norm, div_not_finite_left _ _ (h _ hv)]

/-- C5, witness: the amended theorem applied to the all-zero 2×2 grid
(maximum finite value zero) and to the all-NaN 2×2 grid. -/
theorem c5_witness : plot_map_patches allZeros22 = [] ∧ plot_map_patches allNaN22 = [] :=
  ⟨(c5_amended allZeros22).1 (by decide), (c5_amended allNaN22).2 (by decide)⟩

/-- C6, counterexample: `NAXIS3` is removed by `save_pdf` but not by
`save_fits`, so the two removed keyword sets are not the same. -/
theorem c6_counterexample : "NAXIS3" ∈ save_pdf_cards ∧ "NAXIS3" ∉ save_fits_cards := by
  decide

/-- C6, amended: the keyword set removed by `save_pdf` is the set removed
by `save_fits` plus `NAXIS3` (which `save_fits` does not remove). -/
theorem c6_amended :
    (∀ c : String, c ∈ save_pdf_cards ↔ c = "NAXIS3" ∨ c ∈ save_fits_cards)
    ∧ "NAXIS3" ∉ save_fits_cards := by
  constructor
  · intro c
    simp only [save_pdf_cards, save_fits_cards, List.mem_cons, List.not_mem_nil, or_false]
  · decide

/-- C7: stripping the fixed third-axis keyword set — either variant of
it — from an already-stripped header yields the same header. -/
theorem c7_strip_idempotent (h : Header) :
    strip_cards save_fits_cards (strip_cards save_fits_cards h)
        = strip_cards save_fits_cards h
    ∧ strip_cards save_pdf_cards (strip_cards save_pdf_cards h)
        = strip_cards save_pdf_cards h :=
  ⟨strip_cards_idem _ _, strip_cards_idem _ _⟩

/-- C8, counterexample: for a WCS whose axes have different scales, the
indicator drawn by the code (from `cdelt[0]`, the ascension scale)
differs from the one the claim describes (from the declination scale
`cdelt[1]`). -/
theorem c8_counterexample :
    plot_map_arcsec_bar 0 false wAniso = 1
    ∧ plot_map_arcsec_bar_specreading 0 false wAniso = 1/2
    ∧ plot_map_arcsec_bar 0 false wAniso ≠ plot_map_arcsec_bar_specreading 0 false wAniso := by
  norm_num [plot_map_arcsec_bar, plot_map_arcsec_bar_specreading, wAniso]

/-- C8, amended: the angular-size indicator extends its anchor by the
data-coordinate length of one arcsecond computed from the transform's
first-axis (right-ascension) pixel scale `cdelt[0]`, and the pixel-size
indicator extends by exactly one pixel. -/
theorem c8_amended (x0 : ℚ) (r : Bool) (w : WCSLin) (hx : 0 < w.cdelt.x) :
    |plot_map_arcsec_bar x0 r w - x0| = 1 / (3600 * w.cdelt.x)
    ∧ |plot_map_pixel_bar x0 r - x0| = 1 := by
  cases r
  · constructor
    · rw [plot_map_arcsec_bar]
      simp only [Bool.false_eq_true, if_false]
      rw [show x0 + 1 / (3600 * w.cdelt.x) - x0 = 1 / (3600 * w.cdelt.x) by ring]
      exact abs_of_pos (by positivity)
    · rw [plot_map_pixel_bar]
      simp only [Bool.false_eq_true, if_false]
      rw [show x0 + 1 - x0 = 1 by ring]
      exact abs_one
  · constructor
    · rw [plot_map_arcsec_bar]
      simp only [if_true]
      rw [show x0 - 1 / (3600 * w.cdelt.x) - x0 = -(1 / (3600 * w.cdelt.x)) by ring, abs_neg]
      exact abs_of_pos (by positivity)
    · rw [plot_map_pixel_bar]
      simp only [if_true]
      rw [show x0 - 1 - x0 = -1 by ring, abs_neg]
      exact abs_one

/-- C8, witness: the amended statement at anchor 0, no axis flip, for the
anisotropic WCS (whose first-axis scale 1/3600 is positive). -/
theorem c8_witness :
    |plot_map_arcsec_bar 0 false wAniso - 0| = 1 / (3600 * wAniso.cdelt.x)
    ∧ |plot_map_pixel_bar 0 false - 0| = 1 :=
  c8_amended 0 false wAniso (by norm_num [wAniso])

/-- C9: when the supplied `header` is not a `fits.header.Header`,
`save_fits` builds its output from an empty header, and the written
header still contains the three per-plane provenance comment cards. -/
theorem c9_no_header_ok (d cr : String) (v : PyVal) (hv : v.isHeader = false) :
    save_fits_header d cr v = fits_to_disk_header d cr []
    ∧ ("COMMENT", "1st data plane contains the PAH ionization fraction.")
        ∈ save_fits_header d cr v
    ∧ ("COMMENT", "2nd data plane contains the PAH large fraction.")
        ∈ save_fits_header d cr v
    ∧ ("COMMENT", "3rd data plane contains the error")
        ∈ save_fits_header d cr v := by
  have hbase : save_fits_header d cr v = fits_to_disk_header d cr [] := by
    cases v
    case pyheader h => exact absurd hv (by simp [PyVal.isHeader])
    all_goals rfl
  refine ⟨hbase, ?_, ?_, ?_⟩ <;>
    · rw [hbase]
      exact List.mem_append_right _ (by simp)

/-- C9, witness: concrete date/creator strings and the non-header value
`""` (the default argument of `save_fits`). -/
theorem c9_witness :
    save_fits_header "2025-10-12" "pypahdb v1 (Python 3.11.0)" (.pystr "") =
      fits_to_disk_header "2025-10-12" "pypahdb v1 (Python 3.11.0)" []
    ∧ ("COMMENT", "1st data plane contains the PAH ionization fraction.")
        ∈ save_fits_header "2025-10-12" "pypahdb v1 (Python 3.11.0)" (.pystr "")
    ∧ ("COMMENT", "2nd data plane contains the PAH large fraction.")
        ∈ save_fits_header "2025-10-12" "pypahdb v1 (Python 3.11.0)" (.pystr "")
    ∧ ("COMMENT", "3rd data plane contains the error")
        ∈ save_fits_header "2025-10-12" "pypahdb v1 (Python 3.11.0)" (.pystr "") :=
  c9_no_header_ok "2025-10-12" "pypahdb v1 (Python 3.11.0)" (.pystr "") rfl

/-- C10: the integer 1 is truthy but is not the boolean `True`; passed as
`domaps` it suppresses the map pages (the code tests `domaps is True`),
while passed as `doplots` (which is tested by truthiness) it still
produces every fit page. -/
theorem c10_truthiness_mismatch (rows cols : ℕ) :
    (PyVal.pyint 1).truthy = true ∧ (PyVal.pyint 1).isTrue = false
    ∧ save_pdf_pages (.pyint 1) (.pybool true) rows cols = fit_pages rows cols
    ∧ save_pdf_pages (.pybool true) (.pyint 1) rows cols
        = map_pages ++ fit_pages rows cols := by
  refine ⟨rfl, rfl, ?_, ?_⟩ <;> rfl
